import Mathlib

/-!
Verification of the numeric-array utility layer of the `nengo` repository
(shape normalization, structural hashing of dense and sparse matrices,
the real-FFT frequency fallback) and of the static version descriptor in
`nengo/version.py`.

The utility implementations themselves (`nengo/utils/numpy.py`) are not part
of the visible sources; only their tests are.  Following the specification,
each routine is modelled here from the spec's own description, and the claims
are settled against those models.  `version.py` is visible and is embedded
directly.

Matrix element values are modelled as rationals (`Rat`): the hashing and
shape routines never do arithmetic on element values, they only compare,
reorder and serialize them, so any value type with decidable equality and a
zero is faithful.
-/

namespace NengoSpec

/-- A logical sparse-matrix entry: row index, column index, value. -/
abbrev Entry := Nat × Nat × Rat

/-- Modelled from the spec: the six physical sparse storage layouts named by
the spec (compressed-row, compressed-column, coordinate, block-compressed,
dictionary-of-keys, list-of-lists), as a closed tagged variant.  The actual
sparse objects come from the host sparse-matrix library, absent from `src/`. -/
inductive SparseMatrix where
  | csr (shape : Nat × Nat) (indptr indices : List Nat) (data : List Rat)
  | csc (shape : Nat × Nat) (indptr indices : List Nat) (data : List Rat)
  | coo (shape : Nat × Nat) (rows cols : List Nat) (data : List Rat)
  | bsr (shape bshape : Nat × Nat) (indptr indices : List Nat)
        (blocks : List (List (List Rat)))
  | dok (shape : Nat × Nat) (entries : List ((Nat × Nat) × Rat))
  | lil (shape : Nat × Nat) (rows : List (List (Nat × Rat)))
deriving DecidableEq

/-- The logical 2-D shape of a sparse matrix, in any layout. -/
def SparseMatrix.shape : SparseMatrix → Nat × Nat
  | .csr s _ _ _ => s
  | .csc s _ _ _ => s
  | .coo s _ _ _ => s
  | .bsr s _ _ _ _ => s
  | .dok s _ => s
  | .lil s _ => s

/-- Numeric tag of the storage layout (which of the six physical
representations a matrix is stored in). -/
def SparseMatrix.layoutTag : SparseMatrix → Nat
  | .csr _ _ _ _ => 0
  | .csc _ _ _ _ => 1
  | .coo _ _ _ _ => 2
  | .bsr _ _ _ _ _ => 3
  | .dok _ _ => 4
  | .lil _ _ => 5

/-- The half-open index range `[lo, hi)` as a list. -/
def sliceIdx (lo hi : Nat) : List Nat :=
  (List.range (hi - lo)).map (fun j => lo + j)

/-- The stored entries `(row, col, value)` of a sparse matrix, read off its
physical layout in the layout's native iteration order.  Explicitly stored
zeros (e.g. inside block-compressed blocks) are kept here; canonicalization
drops them later. -/
def SparseMatrix.toEntries : SparseMatrix → List Entry
  | .csr _ indptr indices data =>
      (List.range (indptr.length - 1)).flatMap (fun r =>
        (sliceIdx (indptr.getD r 0) (indptr.getD (r + 1) 0)).map (fun k =>
          (r, indices.getD k 0, data.getD k 0)))
  | .csc _ indptr indices data =>
      (List.range (indptr.length - 1)).flatMap (fun c =>
        (sliceIdx (indptr.getD c 0) (indptr.getD (c + 1) 0)).map (fun k =>
          (indices.getD k 0, c, data.getD k 0)))
  | .coo _ rows cols data => rows.zip (cols.zip data)
  | .bsr _ bshape indptr indices blocks =>
      (List.range (indptr.length - 1)).flatMap (fun br =>
        (sliceIdx (indptr.getD br 0) (indptr.getD (br + 1) 0)).flatMap (fun k =>
          (List.range bshape.1).flatMap (fun i =>
            (List.range bshape.2).map (fun j =>
              (br * bshape.1 + i, (indices.getD k 0) * bshape.2 + j,
               ((blocks.getD k []).getD i []).getD j 0)))))
  | .dok _ es => es.map (fun e => (e.1.1, e.1.2, e.2))
  | .lil _ rows =>
      (List.range rows.length).flatMap (fun r =>
        (rows.getD r []).map (fun cv => (r, cv.1, cv.2)))

/-- The logical content of a sparse matrix: the value stored at cell
`(r, c)`, `0` when no entry is stored there. -/
def valueAt (m : SparseMatrix) (r c : Nat) : Rat :=
  match m.toEntries.find? (fun e => e.1 == r && e.2.1 == c) with
  | some e => e.2.2
  | none => 0

/-- Modelled from the spec: the canonical reference layout used before
hashing — row-compressed order (row-major scan), indices ascending within
each row, explicit zeros dropped. -/
def canonicalEntries (s : Nat × Nat) (f : Nat → Nat → Rat) : List Entry :=
  (List.range s.1).flatMap (fun r =>
    (List.range s.2).filterMap (fun c =>
      if f r c = 0 then none else some (r, c, f r c)))

/-- Tag standing for the (single) element dtype of the modelled matrices. -/
def dtypeTag : Nat := 12

/-- Injective encoding of an integer as a natural number. -/
def encodeInt (n : Int) : Nat :=
  if n < 0 then 2 * n.natAbs + 1 else 2 * n.natAbs

/-- Injective encoding of a rational element value as a natural number
(its serialized byte content in the model). -/
def encodeRat (q : Rat) : Nat := Nat.pair (encodeInt q.num) q.den

/-- Modelled from the spec: the digest over a serialized word sequence.
A deterministic polynomial checksum over 64-bit words stands in for the
host hash routine, which is absent from `src/`. -/
def hashList (l : List Nat) : Nat :=
  l.foldl (fun h x => (h * 1000003 + x + 1) % 2 ^ 64) 5381

/-- The compressed-row pointer array of a canonical entry list. -/
def csrIndptrOf (nrows : Nat) (ents : List Entry) : List Nat :=
  (List.range (nrows + 1)).map (fun r =>
    (ents.filter (fun e => decide (e.1 < r))).length)

/-- Modelled from the spec: the byte sequence hashed for a sparse matrix —
shape, dtype tag, canonical index arrays (row pointers and column indices),
canonical value array, in a fixed order. -/
def encodeSparse (s : Nat × Nat) (ents : List Entry) : List Nat :=
  [s.1, s.2, dtypeTag, ents.length] ++ csrIndptrOf s.1 ents ++
    ents.map (fun e => e.2.1) ++ ents.map (fun e => encodeRat e.2.2)

/-! ### The deterministic sparse test corpus

The `nnz = 7` corpus of `test_array_hash_sparse`: a 5×5 shape, two index
sets `idxs_a`/`idxs_b` and two value sets `data_a`/`data_b`, every
combination materialized in each of the six storage layouts. -/

/-- Value set `data_a = [1.0, 2.0, 1.5, 2.3, 1.2, 2.5, 1.8]`. -/
def dataA : List Rat :=
  [1, 2, mkRat 3 2, mkRat 23 10, mkRat 6 5, mkRat 5 2, mkRat 9 5]

/-- Value set `data_b = [1.0, 1.0, 1.5, 2.3, 1.2, 2.5, 1.8]`. -/
def dataB : List Rat :=
  [1, 1, mkRat 3 2, mkRat 23 10, mkRat 6 5, mkRat 5 2, mkRat 9 5]

/-- Row indices of `idxs_a`. -/
def rowsA : List Nat := [0, 0, 1, 2, 3, 3, 4]

/-- Column indices of `idxs_a`. -/
def colsA : List Nat := [0, 2, 3, 4, 2, 4, 0]

/-- Row indices of `idxs_b`. -/
def rowsB : List Nat := [0, 1, 1, 2, 3, 3, 4]

/-- Column indices of `idxs_b`. -/
def colsB : List Nat := [1, 2, 3, 4, 2, 4, 0]

/-- Compressed-row pointers for `idxs_a` (row counts 2,1,1,2,1). -/
def indptrA : List Nat := [0, 2, 3, 4, 6, 7]

/-- Compressed-row pointers for `idxs_b` (row counts 1,2,1,2,1). -/
def indptrB : List Nat := [0, 1, 3, 4, 6, 7]

/-- Reorder a value list by a list of source positions. -/
def permData (perm : List Nat) (data : List Rat) : List Rat :=
  perm.map (fun k => data.getD k 0)

/-- Column-major visit order of the `idxs_a` entries. -/
def cscPermA : List Nat := [0, 6, 1, 4, 2, 3, 5]

/-- Compressed-column pointers for `idxs_a`. -/
def cscIndptrA : List Nat := [0, 2, 2, 4, 5, 7]

/-- Row indices of `idxs_a` in column-major order. -/
def cscIdxA : List Nat := [0, 4, 0, 3, 1, 2, 3]

/-- Column-major visit order of the `idxs_b` entries. -/
def cscPermB : List Nat := [6, 0, 1, 4, 2, 3, 5]

/-- Compressed-column pointers for `idxs_b`. -/
def cscIndptrB : List Nat := [0, 1, 2, 4, 5, 7]

/-- Row indices of `idxs_b` in column-major order. -/
def cscIdxB : List Nat := [4, 0, 1, 3, 1, 2, 3]

/-- The `idxs_a` matrix with the given values, compressed-row layout. -/
def csrOfA (data : List Rat) : SparseMatrix := .csr (5, 5) indptrA colsA data

/-- The `idxs_b` matrix with the given values, compressed-row layout. -/
def csrOfB (data : List Rat) : SparseMatrix := .csr (5, 5) indptrB colsB data

/-- The `idxs_a` matrix with the given values, compressed-column layout. -/
def cscOfA (data : List Rat) : SparseMatrix :=
  .csc (5, 5) cscIndptrA cscIdxA (permData cscPermA data)

/-- The `idxs_b` matrix with the given values, compressed-column layout. -/
def cscOfB (data : List Rat) : SparseMatrix :=
  .csc (5, 5) cscIndptrB cscIdxB (permData cscPermB data)

/-- The `idxs_a` matrix with the given values, coordinate layout. -/
def cooOfA (data : List Rat) : SparseMatrix := .coo (5, 5) rowsA colsA data

/-- The `idxs_b` matrix with the given values, coordinate layout. -/
def cooOfB (data : List Rat) : SparseMatrix := .coo (5, 5) rowsB colsB data

/-- The `idxs_a` matrix with the given values, block-compressed layout
with 1×1 blocks. -/
def bsrOfA (data : List Rat) : SparseMatrix :=
  .bsr (5, 5) (1, 1) indptrA colsA (data.map (fun v => [[v]]))

/-- The `idxs_b` matrix with the given values, block-compressed layout
with 1×1 blocks. -/
def bsrOfB (data : List Rat) : SparseMatrix :=
  .bsr (5, 5) (1, 1) indptrB colsB (data.map (fun v => [[v]]))

/-- Keyed entry list for a dictionary-of-keys matrix. -/
def dokEntries (rows cols : List Nat) (data : List Rat) :
    List ((Nat × Nat) × Rat) :=
  (rows.zip (cols.zip data)).map (fun e => ((e.1, e.2.1), e.2.2))

/-- The `idxs_a` matrix with the given values, dictionary-of-keys layout. -/
def dokOfA (data : List Rat) : SparseMatrix :=
  .dok (5, 5) (dokEntries rowsA colsA data)

/-- The `idxs_b` matrix with the given values, dictionary-of-keys layout. -/
def dokOfB (data : List Rat) : SparseMatrix :=
  .dok (5, 5) (dokEntries rowsB colsB data)

/-- The `idxs_a` matrix with the given values, list-of-lists layout. -/
def lilOfA (data : List Rat) : SparseMatrix :=
  .lil (5, 5)
    [[(0, data.getD 0 0), (2, data.getD 1 0)],
     [(3, data.getD 2 0)],
     [(4, data.getD 3 0)],
     [(2, data.getD 4 0), (4, data.getD 5 0)],
     [(0, data.getD 6 0)]]

/-- The `idxs_b` matrix with the given values, list-of-lists layout. -/
def lilOfB (data : List Rat) : SparseMatrix :=
  .lil (5, 5)
    [[(1, data.getD 0 0)],
     [(2, data.getD 1 0), (3, data.getD 2 0)],
     [(4, data.getD 3 0)],
     [(2, data.getD 4 0), (4, data.getD 5 0)],
     [(0, data.getD 6 0)]]

/-- The four corpus matrices (both index sets × both value sets) built by
one layout constructor. -/
def corpusIn (mk : (List Rat → SparseMatrix) × (List Rat → SparseMatrix)) :
    List SparseMatrix :=
  [mk.1 dataA, mk.1 dataB, mk.2 dataA, mk.2 dataB]

/-- A dense N-dimensional array: shape, row-major element buffer, and the
writability flag of the buffer. -/
structure Dense where
  shape : List Nat
  data : List Rat
  readonly : Bool
deriving DecidableEq

/-- A value `array_hash` accepts: a dense array or a sparse matrix. -/
inductive ArrayValue where
  | dense (d : Dense)
  | sparse (m : SparseMatrix)
deriving DecidableEq

/-- Modelled from the spec: `array_hash(value)` — for a dense array, a digest
of (shape, dtype tag, raw buffer) in fixed order; for a sparse matrix,
canonicalize to the reference row-compressed layout with zeros dropped and
digest (shape, dtype tag, canonical index arrays, canonical value array). -/
def array_hash : ArrayValue → Nat
  | .dense d =>
      hashList ([d.shape.length] ++ d.shape ++ [dtypeTag, d.data.length] ++
        d.data.map encodeRat)
  | .sparse m =>
      hashList (encodeSparse m.shape (canonicalEntries m.shape (valueAt m)))

/-- The hashes of a list of sparse matrices. -/
def sparseHashes (l : List SparseMatrix) : List Nat :=
  l.map (fun m => array_hash (.sparse m))

/-! ### ShapeNormalizer -/

/-- The two error kinds of the utility layer: a generic value-domain error
and the framework's validation error, each carrying a message. -/
inductive NpError where
  | valueError (msg : String)
  | validationError (msg : String)
deriving DecidableEq

/-- The message of either error kind. -/
def NpError.msg : NpError → String
  | .valueError m => m
  | .validationError m => m

/-- Message of the validation error raised when the input's native rank
exceeds the requested `dims`. -/
def castErrMsg : String := "Input cannot be cast to array with the requested dimensions"

/-- Message of the value error raised on writing to a read-only buffer. -/
def readonlyErrMsg : String := "assignment destination is read-only"

/-- Message of the value error raised by `as_shape` on a non-shape value. -/
def asShapeErrMsg : String := "input cannot be safely converted to a shape"

/-- The rank `array` must produce: `dims` when given, otherwise the larger
of `min_dims` and the native rank. -/
def targetRank (nativeRank : Nat) : Option Nat → Nat → Nat
  | some d0, _ => d0
  | none, md => max md nativeRank

/-- Modelled from the spec: `array(value, dims, min_dims, readonly)` —
converts an array-like input to an array of rank exactly `dims` by appending
trailing singleton dimensions, or (when `dims` is absent) of rank at least
`min_dims`; fails with a validation error when the native rank exceeds
`dims`.  The implementation in `nengo/utils/numpy.py` is absent from
`src/`. -/
def array (value : Dense) (dims : Option Nat) (min_dims : Nat)
    (readonly : Bool) : Except NpError Dense :=
  if value.shape.length > targetRank value.shape.length dims min_dims then
    Except.error (NpError.validationError castErrMsg)
  else
    Except.ok ⟨value.shape ++
      List.replicate (targetRank value.shape.length dims min_dims -
        value.shape.length) 1,
      value.data, readonly⟩

/-- Item assignment on a dense buffer: fails with a value error on a
read-only buffer, otherwise stores the element. -/
def setItem (a : Dense) (i : Nat) (v : Rat) : Except NpError Dense :=
  if a.readonly then Except.error (NpError.valueError readonlyErrMsg)
  else Except.ok ⟨a.shape, a.data.set i v, a.readonly⟩

/-- A scalar in a shape-specification argument: an integer or a float. -/
inductive PyScalar where
  | int (n : Int)
  | float (q : Rat)
deriving DecidableEq

/-- A shape-specification argument: a scalar or a finite ordered sequence
of scalars. -/
inductive ShapeArg where
  | scalar (s : PyScalar)
  | seq (l : List PyScalar)
deriving DecidableEq

/-- Whether a scalar is of integer kind. -/
def PyScalar.isInt : PyScalar → Bool
  | .int _ => true
  | .float _ => false

/-- The integer carried by an integer scalar (`0` for a float). -/
def PyScalar.toInt : PyScalar → Int
  | .int n => n
  | .float _ => 0

/-- Whether a shape argument is an integer or a finite sequence of
integers. -/
def shapeable : ShapeArg → Bool
  | .scalar s => s.isInt
  | .seq l => l.all PyScalar.isInt

/-- Modelled from the spec: `as_shape(value)` — accepts an integer or a
finite ordered sequence of integers and returns the canonical tuple-of-ints
shape; fails with a value error ("cannot be safely converted to a shape")
on anything else, e.g. a float. -/
def as_shape (x : ShapeArg) : Except NpError (List Int) :=
  match x with
  | .scalar (.int n) => Except.ok [n]
  | .scalar (.float _) => Except.error (NpError.valueError asShapeErrMsg)
  | .seq l =>
      if l.all PyScalar.isInt then Except.ok (l.map PyScalar.toInt)
      else Except.error (NpError.valueError asShapeErrMsg)

/-- Modelled from the spec: `broadcast_shape(shape, length)` — left-pad the
shape with singleton dimensions until its rank is `length`; return it
unchanged when `length` does not exceed the current rank. -/
def broadcast_shape (shape : List Nat) (length : Nat) : List Nat :=
  if shape.length < length then
    List.replicate (length - shape.length) 1 ++ shape
  else shape

/-! ### rfftfreq fallback -/

/-- Modelled from the spec: the vendored `rfftfreq(n, d)` fallback — the
frequencies `0, 1, …, n/2`, each scaled by the precomputed factor
`1 / (n * d)`. -/
def rfftfreq (n : Nat) (d : Rat) : List Rat :=
  (List.range (n / 2 + 1)).map (fun i => (i : Rat) * (1 / ((n : Rat) * d)))

/-- Modelled from the spec: the host library's built-in `rfftfreq`, the
standard definition — frequencies `0, 1, …, n/2` divided by `n * d`. -/
def np_rfftfreq (n : Nat) (d : Rat) : List Rat :=
  (List.range (n / 2 + 1)).map (fun i => (i : Rat) / ((n : Rat) * d))

/-! ### Version descriptor (`nengo/version.py`) -/

/-- `'.'.join(str(v) for v in version_info)`. -/
def joinVersionInfo (vi : List Nat) : String :=
  String.intercalate "." (vi.map (fun v => toString v))

/-- The version string construction of `nengo/version.py`: the dot-joined
components with `.dev{dev}` appended exactly when `dev` is not `None`. -/
def mkVersion (vi : List Nat) (dev : Option Nat) : String :=
  joinVersionInfo vi ++
    (match dev with
     | some d => ".dev" ++ toString d
     | none => "")

/-- `version_info = (3, 2, 0)`. -/
def version_info : List Nat := [3, 2, 0]

/-- `dev = 0`. -/
def dev : Option Nat := some 0

/-- The module-level `version` string. -/
def version : String := mkVersion version_info dev

/-! ### Helper lemmas -/

theorem canonicalEntries_congr (s : Nat × Nat) (f g : Nat → Nat → Rat)
    (h : ∀ r < s.1, ∀ c < s.2, f r c = g r c) :
    canonicalEntries s f = canonicalEntries s g := by
  unfold canonicalEntries
  apply List.flatMap_congr
  intro r hr
  apply List.filterMap_congr
  intro c hc
  rw [h r (List.mem_range.mp hr) c (List.mem_range.mp hc)]

theorem array_hash_sparse_congr (m1 m2 : SparseMatrix)
    (hs : m1.shape = m2.shape)
    (hv : ∀ r < m1.shape.1, ∀ c < m1.shape.2,
      valueAt m1 r c = valueAt m2 r c) :
    array_hash (.sparse m1) = array_hash (.sparse m2) := by
  show hashList (encodeSparse m1.shape (canonicalEntries m1.shape (valueAt m1))) =
    hashList (encodeSparse m2.shape (canonicalEntries m2.shape (valueAt m2)))
  rw [← hs, canonicalEntries_congr m1.shape (valueAt m1) (valueAt m2) hv]

theorem find?_key_perm (l1 l2 : List Entry)
    (hnd : (l1.map (fun e => (e.1, e.2.1))).Nodup)
    (hp : l1.Perm l2) (r c : Nat) :
    l1.find? (fun e => e.1 == r && e.2.1 == c) =
      l2.find? (fun e => e.1 == r && e.2.1 == c) := by
  cases h1 : l1.find? (fun e => e.1 == r && e.2.1 == c) with
  | none =>
    cases h2 : l2.find? (fun e => e.1 == r && e.2.1 == c) with
    | none => rfl
    | some b =>
      exact absurd (List.find?_some h2)
        (List.find?_eq_none.mp h1 b (hp.mem_iff.mpr (List.mem_of_find?_eq_some h2)))
  | some a =>
    cases h2 : l2.find? (fun e => e.1 == r && e.2.1 == c) with
    | none =>
      exact absurd (List.find?_some h1)
        (List.find?_eq_none.mp h2 a (hp.mem_iff.mp (List.mem_of_find?_eq_some h1)))
    | some b =>
      have ha1 : a ∈ l1 := List.mem_of_find?_eq_some h1
      have hb1 : b ∈ l1 := hp.mem_iff.mpr (List.mem_of_find?_eq_some h2)
      have hpa := List.find?_some h1
      have hpb := List.find?_some h2
      simp only [Bool.and_eq_true, beq_iff_eq] at hpa hpb
      have hkey : (fun e : Entry => (e.1, e.2.1)) a =
          (fun e : Entry => (e.1, e.2.1)) b := by
        simp only [hpa.1, hpa.2, hpb.1, hpb.2]
      rw [List.inj_on_of_nodup_map hnd ha1 hb1 hkey]

theorem valueAt_dok_perm (s : Nat × Nat) (l1 l2 : List ((Nat × Nat) × Rat))
    (hnd : (l1.map (fun e => e.1)).Nodup) (hp : l1.Perm l2) (r c : Nat) :
    valueAt (.dok s l1) r c = valueAt (.dok s l2) r c := by
  unfold valueAt
  have hperm : (SparseMatrix.toEntries (.dok s l1)).Perm
      (SparseMatrix.toEntries (.dok s l2)) := hp.map _
  have hnd2 : ((SparseMatrix.toEntries (.dok s l1)).map
      (fun e => (e.1, e.2.1))).Nodup := by
    show ((l1.map (fun e => (e.1.1, e.1.2, e.2))).map
      (fun e => (e.1, e.2.1))).Nodup
    rw [List.map_map]
    have hfun : ((fun e : Entry => (e.1, e.2.1)) ∘
        (fun e : (Nat × Nat) × Rat => (e.1.1, e.1.2, e.2))) =
        fun e : (Nat × Nat) × Rat => e.1 := by
      funext e
      simp
    rw [hfun]
    exact hnd
  rw [find?_key_perm _ _ hnd2 hperm r c]

theorem broadcast_shape_of_le (s : List Nat) (l : Nat) (h : l ≤ s.length) :
    broadcast_shape s l = s := by
  unfold broadcast_shape
  rw [if_neg (Nat.not_lt.mpr h)]

theorem broadcast_shape_length (s : List Nat) (l : Nat) :
    (broadcast_shape s l).length = max s.length l := by
  unfold broadcast_shape
  by_cases h : s.length < l
  · rw [if_pos h, List.length_append, List.length_replicate,
      Nat.sub_add_cancel h.le, Nat.max_eq_right h.le]
  · rw [if_neg h, Nat.max_eq_left (Nat.not_lt.mp h)]

theorem rfftfreq_eq_np (n : Nat) (d : Rat) : rfftfreq n d = np_rfftfreq n d := by
  unfold rfftfreq np_rfftfreq
  apply List.map_congr_left
  intro i _
  rw [mul_one_div]

/-! ### The claims -/

/-- Claim C1: for every valid sparse matrix and any two of its physical
representations in different storage layouts encoding identical logical
entries, `array_hash` applied to the two representations returns the same
value. -/
theorem array_hash_layout_invariant :
    ∀ m1 m2 : SparseMatrix, m1.layoutTag ≠ m2.layoutTag →
    m1.shape = m2.shape →
    (∀ r < m1.shape.1, ∀ c < m1.shape.2, valueAt m1 r c = valueAt m2 r c) →
    array_hash (.sparse m1) = array_hash (.sparse m2) :=
  fun m1 m2 _ hs hv => array_hash_sparse_congr m1 m2 hs hv

/-- Witness for C1: the coordinate and compressed-column representations of
the `idxs_a`/`data_a` corpus matrix hash identically. -/
theorem array_hash_layout_invariant_witness :
    array_hash (.sparse (cooOfA dataA)) = array_hash (.sparse (cscOfA dataA)) :=
  array_hash_layout_invariant (cooOfA dataA) (cscOfA dataA)
    (by decide) rfl (by decide)

/-- Claim C2: in the deterministic test corpus (both index sets crossed with
both value sets), the four logically distinct matrices receive pairwise
distinct hashes in every one of the six storage layouts. -/
theorem array_hash_corpus_distinct :
    List.Pairwise (fun a b => a ≠ b) (sparseHashes (corpusIn (csrOfA, csrOfB))) ∧
    List.Pairwise (fun a b => a ≠ b) (sparseHashes (corpusIn (cscOfA, cscOfB))) ∧
    List.Pairwise (fun a b => a ≠ b) (sparseHashes (corpusIn (cooOfA, cooOfB))) ∧
    List.Pairwise (fun a b => a ≠ b) (sparseHashes (corpusIn (bsrOfA, bsrOfB))) ∧
    List.Pairwise (fun a b => a ≠ b) (sparseHashes (corpusIn (dokOfA, dokOfB))) ∧
    List.Pairwise (fun a b => a ≠ b) (sparseHashes (corpusIn (lilOfA, lilOfB))) := by
  decide

/-- Claim C3: `broadcast_shape` left-pads with singleton dimensions up to the
target rank, returns the shape unchanged when the target rank does not
exceed the current one, satisfies the three concrete examples, and is
idempotent at a fixed target rank. -/
theorem broadcast_shape_spec :
    (∀ (s : List Nat) (l : Nat), s.length < l →
      broadcast_shape s l = List.replicate (l - s.length) 1 ++ s ∧
      (broadcast_shape s l).length = l) ∧
    (∀ (s : List Nat) (l : Nat), l ≤ s.length → broadcast_shape s l = s) ∧
    broadcast_shape [3, 2] 3 = [1, 3, 2] ∧
    broadcast_shape [3, 2] 4 = [1, 1, 3, 2] ∧
    broadcast_shape [3, 2] 2 = [3, 2] ∧
    (∀ (s : List Nat) (l : Nat),
      broadcast_shape (broadcast_shape s l) l = broadcast_shape s l) := by
  refine ⟨fun s l h => ⟨?_, ?_⟩, fun s l h => broadcast_shape_of_le s l h,
    by decide, by decide, by decide, fun s l => ?_⟩
  · unfold broadcast_shape
    rw [if_pos h]
  · rw [broadcast_shape_length, Nat.max_eq_right h.le]
  · exact broadcast_shape_of_le _ _
      (by rw [broadcast_shape_length]; exact Nat.le_max_right _ _)

/-- Witness for C3: the padding and no-padding branches at the concrete
shapes of the test. -/
theorem broadcast_shape_spec_witness :
    (broadcast_shape [3, 2] 3 = List.replicate (3 - 2) 1 ++ [3, 2] ∧
      (broadcast_shape [3, 2] 3).length = 3) ∧
    broadcast_shape [3, 2] 2 = [3, 2] :=
  ⟨broadcast_shape_spec.1 [3, 2] 3 (by decide),
   broadcast_shape_spec.2.1 [3, 2] 2 (by decide)⟩

/-- Claim C4: when the native rank does not exceed `dims`, `array` returns a
buffer of rank exactly `dims` obtained by appending trailing singleton
dimensions; with `dims` absent, trailing singletons are appended only until
the rank reaches `min_dims`; and the four concrete shape examples hold. -/
theorem array_dims_spec :
    (∀ (v : Dense) (d md : Nat) (ro : Bool), v.shape.length ≤ d →
      array v (some d) md ro =
        Except.ok ⟨v.shape ++ List.replicate (d - v.shape.length) 1,
          v.data, ro⟩ ∧
      (v.shape ++ List.replicate (d - v.shape.length) 1).length = d) ∧
    (∀ (v : Dense) (md : Nat) (ro : Bool),
      array v none md ro =
        Except.ok ⟨v.shape ++ List.replicate (md - v.shape.length) 1,
          v.data, ro⟩ ∧
      (v.shape ++ List.replicate (md - v.shape.length) 1).length =
        max v.shape.length md) ∧
    (array ⟨[3], [1, 2, 3], false⟩ (some 4) 0 false).map Dense.shape =
      Except.ok [3, 1, 1, 1] ∧
    (array ⟨[3], [1, 2, 3], false⟩ (some 1) 0 false).map Dense.shape =
      Except.ok [3] ∧
    (array ⟨[3], [1, 2, 3], false⟩ none 2 false).map Dense.shape =
      Except.ok [3, 1] ∧
    (array ⟨[3], [1, 2, 3], false⟩ none 1 false).map Dense.shape =
      Except.ok [3] := by
  refine ⟨fun v d md ro h => ⟨?_, ?_⟩, fun v md ro => ⟨?_, ?_⟩,
    rfl, rfl, rfl, rfl⟩
  · unfold array targetRank
    rw [if_neg (Nat.not_lt.mpr h)]
  · rw [List.length_append, List.length_replicate]
    omega
  · unfold array targetRank
    rw [if_neg (Nat.not_lt.mpr (Nat.le_max_right md v.shape.length))]
    have hmax : max md v.shape.length - v.shape.length = md - v.shape.length := by
      omega
    rw [hmax]
  · rw [List.length_append, List.length_replicate]
    omega

/-- Witness for C4: both rank-adjustment branches at the concrete input of
the test. -/
theorem array_dims_spec_witness :
    array ⟨[3], [1, 2, 3], false⟩ (some 4) 0 false =
      Except.ok ⟨[3] ++ List.replicate (4 - 1) 1, [1, 2, 3], false⟩ ∧
    ([3] ++ List.replicate (4 - 1) 1 : List Nat).length = 4 :=
  array_dims_spec.1 ⟨[3], [1, 2, 3], false⟩ 4 0 false (by decide)

/-- Claim C5: when the native rank exceeds the requested `dims`, `array`
fails with the validation error whose message contains
"Input cannot be cast to array"; in particular at the test's concrete
input. -/
theorem array_rank_error_spec :
    (∀ (v : Dense) (d md : Nat) (ro : Bool), d < v.shape.length →
      array v (some d) md ro =
        Except.error (NpError.validationError castErrMsg)) ∧
    List.IsInfix "Input cannot be cast to array".toList castErrMsg.toList ∧
    array ⟨[1, 3], [1, 2, 3], false⟩ (some 1) 0 false =
      Except.error (NpError.validationError castErrMsg) := by
  refine ⟨fun v d md ro h => ?_, by decide, rfl⟩
  unfold array targetRank
  rw [if_pos h]

/-- Witness for C5: applying the rank-exceeded branch at the test's concrete
input. -/
theorem array_rank_error_spec_witness :
    array ⟨[1, 3], [1, 2, 3], false⟩ (some 1) 0 false =
      Except.error (NpError.validationError castErrMsg) :=
  array_rank_error_spec.1 ⟨[1, 3], [1, 2, 3], false⟩ 1 0 false (by decide)

/-- Claim C6: `as_shape` fails with the value error whose message contains
"cannot be safely converted to a shape" exactly on arguments that are
neither an integer nor a finite sequence of integers (such as the float
`1.0`), and returns a tuple-of-ints shape on every other argument. -/
theorem as_shape_spec :
    (∀ x : ShapeArg, shapeable x = false →
      as_shape x = Except.error (NpError.valueError asShapeErrMsg)) ∧
    (∀ x : ShapeArg, shapeable x = true → ∃ t, as_shape x = Except.ok t) ∧
    List.IsInfix "cannot be safely converted to a shape".toList
      asShapeErrMsg.toList ∧
    as_shape (.scalar (.float 1)) =
      Except.error (NpError.valueError asShapeErrMsg) := by
  refine ⟨fun x h => ?_, fun x h => ?_, by decide, rfl⟩
  · cases x with
    | scalar s =>
      cases s with
      | int n => simp [shapeable, PyScalar.isInt] at h
      | float q => rfl
    | seq l =>
      have hl : l.all PyScalar.isInt = false := h
      simp [as_shape, hl]
  · cases x with
    | scalar s =>
      cases s with
      | int n => exact ⟨[n], rfl⟩
      | float q => simp [shapeable, PyScalar.isInt] at h
    | seq l =>
      have hl : l.all PyScalar.isInt = true := h
      exact ⟨l.map PyScalar.toInt, by simp [as_shape, hl]⟩

/-- Witness for C6: the float `1.0` is rejected with the shape-conversion
message and the integer `5` is accepted. -/
theorem as_shape_spec_witness :
    as_shape (.scalar (.float 1)) =
      Except.error (NpError.valueError asShapeErrMsg) ∧
    ∃ t, as_shape (.scalar (.int 5)) = Except.ok t :=
  ⟨as_shape_spec.1 (.scalar (.float 1)) rfl,
   as_shape_spec.2.1 (.scalar (.int 5)) rfl⟩

/-- Claim C7: a buffer produced by `array` with `readonly = true` rejects
every item assignment with the value error whose message contains
"read-only", while a buffer produced with `readonly = false` accepts item
assignment. -/
theorem array_readonly_spec :
    (∀ (v : Dense) (dims : Option Nat) (md i : Nat) (x : Rat) (b : Dense),
      array v dims md true = Except.ok b →
      setItem b i x = Except.error (NpError.valueError readonlyErrMsg)) ∧
    (∀ (v : Dense) (dims : Option Nat) (md i : Nat) (x : Rat) (b : Dense),
      array v dims md false = Except.ok b →
      setItem b i x = Except.ok ⟨b.shape, b.data.set i x, false⟩) ∧
    List.IsInfix "read-only".toList readonlyErrMsg.toList := by
  refine ⟨fun v dims md i x b h => ?_, fun v dims md i x b h => ?_, by decide⟩
  · unfold array at h
    split at h
    · exact Except.noConfusion h
    · simp only [Except.ok.injEq] at h
      rw [← h]
      rfl
  · unfold array at h
    split at h
    · exact Except.noConfusion h
    · simp only [Except.ok.injEq] at h
      rw [← h]
      rfl

/-- Witness for C7: both the read-only rejection and the mutable success at
the test's concrete input. -/
theorem array_readonly_spec_witness :
    setItem ⟨[3], [1, 2, 3], true⟩ 0 3 =
      Except.error (NpError.valueError readonlyErrMsg) ∧
    setItem ⟨[3], [1, 2, 3], false⟩ 0 3 =
      Except.ok ⟨[3], ([1, 2, 3] : List Rat).set 0 3, false⟩ :=
  ⟨array_readonly_spec.1 ⟨[3], [1, 2, 3], false⟩ none 0 0 3
      ⟨[3], [1, 2, 3], true⟩ rfl,
   array_readonly_spec.2.1 ⟨[3], [1, 2, 3], false⟩ none 0 0 3
      ⟨[3], [1, 2, 3], false⟩ rfl⟩

/-- Claim C8: `array_hash` is deterministic — two calls on the same object
agree, and the result depends only on the canonical logical content: it is
unchanged across layouts with equal logical entries and across reorderings
of a dictionary-of-keys entry list. -/
theorem array_hash_deterministic :
    (∀ v : ArrayValue, array_hash v = array_hash v) ∧
    (∀ m1 m2 : SparseMatrix, m1.shape = m2.shape →
      (∀ r < m1.shape.1, ∀ c < m1.shape.2,
        valueAt m1 r c = valueAt m2 r c) →
      array_hash (.sparse m1) = array_hash (.sparse m2)) ∧
    (∀ (s : Nat × Nat) (l1 l2 : List ((Nat × Nat) × Rat)),
      (l1.map (fun e => e.1)).Nodup → l1.Perm l2 →
      array_hash (.sparse (.dok s l1)) = array_hash (.sparse (.dok s l2))) :=
  ⟨fun _ => rfl,
   fun m1 m2 hs hv => array_hash_sparse_congr m1 m2 hs hv,
   fun s l1 l2 hnd hp => array_hash_sparse_congr _ _ rfl
     (fun r _ c _ => valueAt_dok_perm s l1 l2 hnd hp r c)⟩

/-- Witness for C8: repetition, layout independence, and insertion-order
independence at concrete corpus matrices. -/
theorem array_hash_deterministic_witness :
    array_hash (.sparse (csrOfA dataA)) = array_hash (.sparse (csrOfA dataA)) ∧
    array_hash (.sparse (lilOfA dataA)) = array_hash (.sparse (bsrOfA dataA)) ∧
    array_hash (.sparse (.dok (5, 5) (dokEntries rowsA colsA dataA))) =
      array_hash (.sparse (.dok (5, 5)
        ((dokEntries rowsA colsA dataA).reverse))) :=
  ⟨array_hash_deterministic.1 (.sparse (csrOfA dataA)),
   array_hash_deterministic.2.1 (lilOfA dataA) (bsrOfA dataA) rfl (by decide),
   array_hash_deterministic.2.2 (5, 5) (dokEntries rowsA colsA dataA)
     ((dokEntries rowsA colsA dataA).reverse) (by decide) (by decide)⟩

/-- Claim C9: the `rfftfreq` fallback returns the frequencies
`0, 1, …, n/2` divided by `n * d`, and agrees with the host library's
built-in routine, in particular for `n ∈ {3,4,8,9}` and
`d ∈ {1.0, 3.4, 9.8}`. -/
theorem rfftfreq_spec :
    (∀ (n : Nat) (d : Rat), 0 < n → 0 < d → rfftfreq n d = np_rfftfreq n d) ∧
    (∀ (n : Nat) (d : Rat), rfftfreq n d =
      (List.range (n / 2 + 1)).map (fun i => (i : Rat) / ((n : Rat) * d))) ∧
    (∀ n ∈ ([3, 4, 8, 9] : List Nat), ∀ d ∈ ([1, mkRat 17 5, mkRat 49 5] : List Rat),
      rfftfreq n d = np_rfftfreq n d) :=
  ⟨fun n d _ _ => rfftfreq_eq_np n d,
   fun n d => rfftfreq_eq_np n d,
   fun n _ d _ => rfftfreq_eq_np n d⟩

/-- Witness for C9: the fallback agrees with the built-in at `n = 4`,
`d = 1.0`. -/
theorem rfftfreq_spec_witness : rfftfreq 4 1 = np_rfftfreq 4 1 :=
  rfftfreq_spec.1 4 1 (by decide) (by decide)

/-- Claim C10: the module-level version string is the dot-joined
`version_info` with `.dev{dev}` appended whenever `dev` is not `None`,
including for `dev = 0`: with `version_info = (3, 2, 0)` and `dev = 0` the
version is exactly "3.2.0.dev0", not "3.2.0". -/
theorem version_string_spec :
    (∀ (vi : List Nat) (d : Nat),
      mkVersion vi (some d) = joinVersionInfo vi ++ (".dev" ++ toString d)) ∧
    (∀ vi : List Nat, mkVersion vi none = joinVersionInfo vi) ∧
    version = "3.2.0.dev0" ∧
    version ≠ "3.2.0" := by
  refine ⟨fun vi d => rfl, fun vi => ?_, by decide, by decide⟩
  show joinVersionInfo vi ++ "" = joinVersionInfo vi
  simp

end NengoSpec
